import Mathlib

/-!
Verification development for the LiRu robot firmware (liru-core).

The definitions below are a shallow embedding of the Rust sources:
  - motors.rs      (MotorController: set_motor, set_both, stop_all, maneuvers)
  - sensors.rs     (CalibratedSensors: calibration and line-position estimation)
  - bluetooth.rs   (command decoding and telemetry message encoding)
  - main.rs        (the mode state machine: command handling and per-mode tick)

Machine integers are modelled as Nat / Int with explicit reductions modulo
2^8 or 2^16 exactly where the Rust types (u8, i8, u16) can wrap; saturating
subtraction on unsigned values is Nat subtraction.
-/

namespace LiRu

/-- Interpretation of a byte (0..255) as a Rust i8 via two's complement,
as in the casts left and right payload bytes undergo in bluetooth.rs. -/
def byteToI8 (b : ℕ) : ℤ :=
  if b < 128 then (b : ℤ) else (b : ℤ) - 256

/-- Interpretation of an i8 value as a u8 (the Rust as-cast), two's complement. -/
def i8AsU8 (x : ℤ) : ℕ :=
  (x % 256).toNat

/-- Wrapping negation on i8: negating -128 overflows and wraps back to -128
(release-build semantics of the unary minus in speed_to_dir). -/
def i8Neg (x : ℤ) : ℤ :=
  if x = -128 then -128 else -x

/-- Reduction of a Nat modulo 2^16, the wrap of Rust u16 arithmetic. -/
def u16wrap (n : ℕ) : ℕ := n % 65536

/-! ## MotorController (motors.rs) -/

/-- Motor identifier (motors.rs, enum Motor). -/
inductive Motor where
  | Left
  | Right
deriving DecidableEq, Repr

/-- Motor direction (motors.rs, enum Direction). -/
inductive Direction where
  | Forward
  | Reverse
  | Stop
deriving DecidableEq, Repr

/-- Duty cycles of the four PWM channels.
ch1 = Motor A (left) forward, ch2 = left reverse,
ch3 = Motor B (right) forward, ch4 = right reverse. -/
structure Duties where
  ch1 : ℕ
  ch2 : ℕ
  ch3 : ℕ
  ch4 : ℕ
deriving DecidableEq, Repr

/-- Embedding of MotorController.set_motor: clamp the speed percentage to 100,
scale to a duty, and write the forward/reverse channel pair of the chosen
side.  The Stop direction drives the forward channel at the 10 percent
keep-alive duty with the reverse channel at 0. -/
def set_motor (maxDuty : ℕ) (d : Duties) (m : Motor) (dir : Direction)
    (speedPercent : ℕ) : Duties :=
  let speed := min speedPercent 100
  let duty := maxDuty * speed / 100
  let keepAliveDuty := maxDuty * 10 / 100
  match m, dir with
  | Motor.Left, Direction.Forward => { d with ch2 := 0, ch1 := duty }
  | Motor.Left, Direction.Reverse => { d with ch1 := 0, ch2 := duty }
  | Motor.Left, Direction.Stop => { d with ch2 := 0, ch1 := keepAliveDuty }
  | Motor.Right, Direction.Forward => { d with ch4 := 0, ch3 := duty }
  | Motor.Right, Direction.Reverse => { d with ch3 := 0, ch4 := duty }
  | Motor.Right, Direction.Stop => { d with ch4 := 0, ch3 := keepAliveDuty }

/-- Embedding of MotorController::speed_to_dir on an i8 argument
(an integer in [-128, 127]): positive selects Forward with magnitude
min(speed, 100); negative selects Reverse, where the magnitude is computed
as (-speed).min(100) in i8 arithmetic and then cast to u8; zero selects
the Stop direction. -/
def speed_to_dir (s : ℤ) : Direction × ℕ :=
  if 0 < s then (Direction.Forward, (min s 100).toNat)
  else if s < 0 then (Direction.Reverse, i8AsU8 (min (i8Neg s) 100))
  else (Direction.Stop, 0)

/-- Embedding of MotorController.set_both: convert each signed speed and
apply set_motor to the left, then the right side. -/
def set_both (maxDuty : ℕ) (d : Duties) (leftSpeed rightSpeed : ℤ) : Duties :=
  let l := speed_to_dir leftSpeed
  let r := speed_to_dir rightSpeed
  set_motor maxDuty (set_motor maxDuty d Motor.Left l.1 l.2) Motor.Right r.1 r.2

/-- Embedding of MotorController.stop_all: all four channel duties forced to 0. -/
def stop_all (_d : Duties) : Duties :=
  { ch1 := 0, ch2 := 0, ch3 := 0, ch4 := 0 }

/-- Embedding of MotorController.forward. -/
def motor_forward (maxDuty : ℕ) (d : Duties) (speedPercent : ℕ) : Duties :=
  set_motor maxDuty (set_motor maxDuty d Motor.Left Direction.Forward speedPercent)
    Motor.Right Direction.Forward speedPercent

/-- Embedding of MotorController.backward. -/
def motor_backward (maxDuty : ℕ) (d : Duties) (speedPercent : ℕ) : Duties :=
  set_motor maxDuty (set_motor maxDuty d Motor.Left Direction.Reverse speedPercent)
    Motor.Right Direction.Reverse speedPercent

/-- Embedding of MotorController.turn_left. -/
def turn_left (maxDuty : ℕ) (d : Duties) (speedPercent : ℕ) : Duties :=
  set_motor maxDuty (set_motor maxDuty d Motor.Left Direction.Reverse speedPercent)
    Motor.Right Direction.Forward speedPercent

/-- Embedding of MotorController.turn_right. -/
def turn_right (maxDuty : ℕ) (d : Duties) (speedPercent : ℕ) : Duties :=
  set_motor maxDuty (set_motor maxDuty d Motor.Left Direction.Forward speedPercent)
    Motor.Right Direction.Reverse speedPercent

/-! ## CalibratedSensors (sensors.rs) -/

/-- Calibration state of the 8-channel sensor array (sensors.rs,
CalibratedSensors).  Readings are modelled as functions from the channel
index. -/
structure CalState where
  min_readings : Fin 8 → ℕ
  max_readings : Fin 8 → ℕ
  thresholds : Fin 8 → ℕ
  calibrated : Bool

/-- Embedding of CalibratedSensors::new calibration fields: min initialized
to 4095, max to 0, thresholds to the default 2000, not calibrated. -/
def CalState.init : CalState :=
  { min_readings := fun _ => 4095
    max_readings := fun _ => 0
    thresholds := fun _ => 2000
    calibrated := false }

/-- Embedding of reset_calibration: min back to 4095, max to 0, calibrated
flag cleared; thresholds are left untouched. -/
def reset_calibration (c : CalState) : CalState :=
  { c with
    min_readings := fun _ => 4095
    max_readings := fun _ => 0
    calibrated := false }

/-- Embedding of update_calibration: per channel, lower min to the reading
if smaller, raise max to the reading if larger. -/
def update_calibration (c : CalState) (frame : Fin 8 → ℕ) : CalState :=
  { c with
    min_readings := fun i =>
      if frame i < c.min_readings i then frame i else c.min_readings i
    max_readings := fun i =>
      if frame i > c.max_readings i then frame i else c.max_readings i }

/-- Per-channel threshold computation of finalize_calibration, with the
u16 semantics of the source: range = max.saturating_sub(min) (Nat
subtraction), then range * 40 wraps modulo 2^16 as a u16 multiply, the
result is divided by 100 and added to min with a u16 wrapping add. -/
def finalizeThreshold (mn mx : ℕ) : ℕ :=
  let range := mx - mn
  u16wrap (mn + u16wrap (range * 40) / 100)

/-- Embedding of finalize_calibration: thresholds from finalizeThreshold,
calibrated flag set. -/
def finalize_calibration (c : CalState) : CalState :=
  { c with
    thresholds := fun i => finalizeThreshold (c.min_readings i) (c.max_readings i)
    calibrated := true }

/-- Embedding of the calibrated read_binary: bit i set iff the reading of
channel i exceeds the channel's threshold. -/
def read_binary (c : CalState) (frame : Fin 8 → ℕ) : ℕ :=
  (List.finRange 8).foldl
    (fun acc i => if frame i > c.thresholds i then acc ||| (1 <<< (i : ℕ)) else acc) 0

/-- Per-channel normalization inside read_line_position: 0 when the raw
value is at most min, else 1000 when it is at least max, else linear
scaling of raw - min over the range (the range = 0 guard of that last
branch is unreachable there but kept as in the source). -/
def normalize (mn mx raw : ℕ) : ℕ :=
  if raw ≤ mn then 0
  else if mx ≤ raw then 1000
  else
    let range := mx - mn
    if range = 0 then 0 else (raw - mn) * 1000 / range

/-- The accumulation loop of read_line_position: over channels 0..7 in
order, add the normalized value to the intensity and the normalized value
times (index * 1000) to the weighted sum. -/
def linePosAcc (c : CalState) (frame : Fin 8 → ℕ) : ℤ × ℕ :=
  (List.finRange 8).foldl
    (fun acc i =>
      let v := normalize (c.min_readings i) (c.max_readings i) (frame i)
      (acc.1 + (v : ℤ) * ((i : ℕ) * 1000 : ℕ), acc.2 + v))
    (0, 0)

/-- Embedding of read_line_position: run the accumulation loop; if the
total intensity is below 500 return the (0, 0) sentinel, otherwise the
weighted sum divided by the intensity (i32 truncating division), shifted
by 3500, paired with the intensity. -/
def read_line_position (c : CalState) (frame : Fin 8 → ℕ) : ℤ × ℕ :=
  let acc := linePosAcc c frame
  if acc.2 < 500 then (0, 0)
  else (Int.tdiv acc.1 (acc.2 : ℤ) - 3500, acc.2)

/-! Specification-side formulas for the estimator, written as closed sums,
to be compared with the loop above. -/

/-- Total normalized intensity as a closed sum over the 8 channels. -/
def totalIntensity (c : CalState) (frame : Fin 8 → ℕ) : ℕ :=
  ∑ i : Fin 8, normalize (c.min_readings i) (c.max_readings i) (frame i)

/-- Weighted sum of normalized values times (index * 1000), as a closed sum. -/
def weightedSum (c : CalState) (frame : Fin 8 → ℕ) : ℤ :=
  ∑ i : Fin 8,
    (normalize (c.min_readings i) (c.max_readings i) (frame i) : ℤ) * ((i : ℕ) * 1000 : ℕ)

/-- Concrete calibration used by the spec example: min 0 and max 1000 on
every channel. -/
def calEx : CalState :=
  { CalState.init with min_readings := fun _ => 0, max_readings := fun _ => 1000 }

/-- Concrete frame whose only nonzero channel is channel 3 at 1000. -/
def frameOnly3 : Fin 8 → ℕ := fun i => if i = 3 then 1000 else 0

/-- Concrete all-zero frame. -/
def frameZero : Fin 8 → ℕ := fun _ => 0

end LiRu

namespace LiRu

/-! ## Helper lemmas -/

theorem foldl_pair_sum (g : Fin 8 → ℤ) (f : Fin 8 → ℕ) (l : List (Fin 8)) :
    ∀ ws ti, l.foldl (fun acc i => (acc.1 + g i, acc.2 + f i)) (ws, ti)
      = (ws + (l.map g).sum, ti + (l.map f).sum) := by
  induction l with
  | nil => intro ws ti; simp
  | cons a l ih =>
    intro ws ti
    simp only [List.foldl_cons, List.map_cons, List.sum_cons, ih]
    rw [Prod.mk.injEq]
    constructor
    · ring
    · ring

theorem linePosAcc_eq_sums (c : CalState) (frame : Fin 8 → ℕ) :
    linePosAcc c frame = (weightedSum c frame, totalIntensity c frame) := by
  unfold linePosAcc
  rw [foldl_pair_sum
    (fun i => (normalize (c.min_readings i) (c.max_readings i) (frame i) : ℤ)
      * ((i : ℕ) * 1000 : ℕ))
    (fun i => normalize (c.min_readings i) (c.max_readings i) (frame i))]
  simp [weightedSum, totalIntensity, Fin.sum_univ_def]

/-! ## C1 -/

/-- C1: for every calibration state and sensor frame, read_line_position
returns the sentinel (0, 0) whenever the summed normalized intensity is
below 500, regardless of how the signal is distributed across channels;
otherwise it returns position = weighted_sum / total_intensity - 3500
together with the total intensity; with min 0 and max 1000 on every
channel and a frame whose only nonzero channel is channel 3 at 1000, it
returns intensity 1000 and position -500. -/
theorem read_line_position_spec (c : CalState) (frame : Fin 8 → ℕ) :
    (totalIntensity c frame < 500 → read_line_position c frame = (0, 0)) ∧
    (500 ≤ totalIntensity c frame →
      read_line_position c frame
        = (Int.tdiv (weightedSum c frame) (totalIntensity c frame : ℤ) - 3500,
            totalIntensity c frame)) ∧
    read_line_position calEx frameOnly3 = (-500, 1000) := by
  refine ⟨?_, ?_, by decide⟩
  · intro h
    unfold read_line_position
    rw [linePosAcc_eq_sums]
    simp [h]
  · intro h
    unfold read_line_position
    rw [linePosAcc_eq_sums]
    simp only []
    rw [if_neg (by omega)]

/-- Witness for C1: both branches of the theorem applied at concrete inputs. -/
theorem read_line_position_spec_witness :
    read_line_position calEx frameZero = (0, 0) ∧
    read_line_position calEx frameOnly3
      = (Int.tdiv (weightedSum calEx frameOnly3) (totalIntensity calEx frameOnly3 : ℤ) - 3500,
          totalIntensity calEx frameOnly3) :=
  ⟨(read_line_position_spec calEx frameZero).1 (by decide),
   (read_line_position_spec calEx frameOnly3).2.1 (by decide)⟩

end LiRu

namespace LiRu

/-! ## C2 -/

/-- C2 counterexample: for a channel whose min equals max (both 5), the
raw reading 6 normalizes to 1000, not 0 — the claim that a channel with
min equal to max always normalizes to 0 is false on the code, because the
branch testing raw at least max is reached whenever raw exceeds min. -/
theorem normalize_min_eq_max_cex :
    normalize 5 5 6 = 1000 ∧ ¬ normalize 5 5 6 = 0 := by decide

/-- C2 amended: the normalized value is 0 when the raw reading is at most
min (this branch takes precedence), 1000 when the reading exceeds min and
is at least max, and the whole function is monotone in the raw reading;
for a channel whose min equals max the value is 0 for readings at most
min and 1000 for readings above min (not 0 everywhere). -/
theorem normalize_amended (mn mx : ℕ) :
    (∀ r, r ≤ mn → normalize mn mx r = 0) ∧
    (∀ r, mn < r → mx ≤ r → normalize mn mx r = 1000) ∧
    (∀ r₁ r₂, r₁ ≤ r₂ → normalize mn mx r₁ ≤ normalize mn mx r₂) ∧
    (mn = mx → ∀ r, normalize mn mx r = if r ≤ mn then 0 else 1000) := by
  refine ⟨?_, ?_, ?_, ?_⟩
  · intro r h
    simp [normalize, h]
  · intro r h1 h2
    unfold normalize
    rw [if_neg (by omega), if_pos h2]
  · intro r₁ r₂ h
    unfold normalize
    by_cases h1 : r₁ ≤ mn
    · rw [if_pos h1]
      exact Nat.zero_le _
    · rw [if_neg h1]
      by_cases h2 : mx ≤ r₁
      · rw [if_pos h2, if_neg (show ¬ r₂ ≤ mn by omega), if_pos (by omega)]
      · rw [if_neg h2]
        have hrange : ¬ (mx - mn = 0) := by omega
        rw [if_neg hrange, if_neg (show ¬ r₂ ≤ mn by omega)]
        by_cases h4 : mx ≤ r₂
        · rw [if_pos h4]
          calc (r₁ - mn) * 1000 / (mx - mn)
              ≤ (mx - mn) * 1000 / (mx - mn) :=
                Nat.div_le_div_right (Nat.mul_le_mul_right 1000 (by omega))
            _ = 1000 := Nat.mul_div_cancel_left 1000 (by omega)
        · rw [if_neg h4, if_neg hrange]
          exact Nat.div_le_div_right (Nat.mul_le_mul_right 1000 (by omega))
  · intro he r
    subst he
    unfold normalize
    by_cases h : r ≤ mn
    · rw [if_pos h, if_pos h]
    · rw [if_neg h, if_neg h, if_pos (by omega)]

/-- Witness for C2: the amended theorem applied at concrete channels and
readings, covering each hypothesised conjunct. -/
theorem normalize_amended_witness :
    normalize 200 3000 150 = 0 ∧
    normalize 200 3000 3500 = 1000 ∧
    normalize 200 3000 700 ≤ normalize 200 3000 2100 ∧
    normalize 5 5 6 = 1000 :=
  ⟨(normalize_amended 200 3000).1 150 (by decide),
   (normalize_amended 200 3000).2.1 3500 (by decide) (by decide),
   (normalize_amended 200 3000).2.2.1 700 2100 (by decide),
   ((normalize_amended 5 5).2.2.2 rfl 6).trans (by norm_num)⟩

/-! ## C3 -/

/-- C3: finalize_calibration is claimed to compute
threshold = min + (max - min) * 40 / 100 with only saturating or clamped
arithmetic and no overflow for min and max in [0, 4095]; in the code the
multiplication range * 40 is an unchecked u16 multiply, which wraps (or
traps under overflow checks) whenever max - min is at least 1639.  At
min = 0, max = 4095 the code yields threshold 327 while the claimed
formula yields 1638. -/
theorem finalizeThreshold_overflow :
    finalizeThreshold 0 4095 = 327 ∧
    0 + (4095 - 0) * 40 / 100 = 1638 ∧
    ¬ finalizeThreshold 0 4095 = 0 + (4095 - 0) * 40 / 100 := by decide

end LiRu

namespace LiRu

/-! ## Motor lemmas, C5 and C8 -/

theorem speed_to_dir_zero : speed_to_dir 0 = (Direction.Stop, 0) := by decide

theorem speed_to_dir_pos (s : ℤ) (h : 0 < s) :
    speed_to_dir s = (Direction.Forward, (min s 100).toNat) := by
  unfold speed_to_dir
  rw [if_pos h]

theorem speed_to_dir_neg (s : ℤ) (h128 : -128 ≤ s) (h : s < 0) :
    speed_to_dir s = (Direction.Reverse, i8AsU8 (min (i8Neg s) 100)) ∧
    min (i8AsU8 (min (i8Neg s) 100)) 100 = min (-s).toNat 100 := by
  constructor
  · unfold speed_to_dir
    rw [if_neg (by omega), if_pos h]
  · unfold i8Neg i8AsU8
    by_cases hs : s = -128
    · subst hs; decide
    · rw [if_neg hs]
      omega

theorem set_motor_right_ch1 (maxDuty : ℕ) (d : Duties) (dir : Direction) (p : ℕ) :
    (set_motor maxDuty d Motor.Right dir p).ch1 = d.ch1 := by
  cases dir <;> rfl

theorem set_motor_right_ch2 (maxDuty : ℕ) (d : Duties) (dir : Direction) (p : ℕ) :
    (set_motor maxDuty d Motor.Right dir p).ch2 = d.ch2 := by
  cases dir <;> rfl

/-- C5: set_both at (0, 0) puts both sides into the Stop policy — reverse
channel duty 0, forward channel duty equal to 10 percent of the max duty
(nonzero whenever the max duty is at least 10) — while stop_all forces all
four channel duties to 0. -/
theorem set_both_zero_stop_policy (maxDuty : ℕ) (d : Duties) :
    set_both maxDuty d 0 0
      = { ch1 := maxDuty * 10 / 100, ch2 := 0,
          ch3 := maxDuty * 10 / 100, ch4 := 0 } ∧
    (10 ≤ maxDuty → (set_both maxDuty d 0 0).ch1 ≠ 0) ∧
    stop_all d = { ch1 := 0, ch2 := 0, ch3 := 0, ch4 := 0 } := by
  refine ⟨rfl, ?_, rfl⟩
  intro h
  show maxDuty * 10 / 100 ≠ 0
  have : 100 ≤ maxDuty * 10 := by omega
  omega

/-- Witness for C5 at max duty 1000 and an arbitrary nonzero prior duty
assignment. -/
theorem set_both_zero_stop_policy_witness :
    set_both 1000 ⟨9, 9, 9, 9⟩ 0 0
      = { ch1 := 1000 * 10 / 100, ch2 := 0, ch3 := 1000 * 10 / 100, ch4 := 0 } ∧
    (set_both 1000 ⟨9, 9, 9, 9⟩ 0 0).ch1 ≠ 0 ∧
    stop_all ⟨9, 9, 9, 9⟩ = { ch1 := 0, ch2 := 0, ch3 := 0, ch4 := 0 } :=
  ⟨(set_both_zero_stop_policy 1000 ⟨9, 9, 9, 9⟩).1,
   (set_both_zero_stop_policy 1000 ⟨9, 9, 9, 9⟩).2.1 (by decide),
   (set_both_zero_stop_policy 1000 ⟨9, 9, 9, 9⟩).2.2⟩

/-- C8 counterexample: the arguments of set_both are i8, so the value 150
is not representable; the only way the number 150 reaches set_both is as
the wire byte 150, which the payload cast turns into -106 (and the wire
byte for -150 is 106, which casts to +106).  With those inputs set_both
drives left in reverse and right forward at full clamped speed — not the
behavior of set_both(100, -100), which is the exact opposite. -/
theorem set_both_150_cex :
    byteToI8 150 = -106 ∧ i8AsU8 (-150) = 106 ∧ byteToI8 106 = 106 ∧
    set_both 1000 ⟨0, 0, 0, 0⟩ (byteToI8 150) (byteToI8 106)
      = { ch1 := 0, ch2 := 1000, ch3 := 1000, ch4 := 0 } ∧
    set_both 1000 ⟨0, 0, 0, 0⟩ 100 (-100)
      = { ch1 := 1000, ch2 := 0, ch3 := 0, ch4 := 1000 } ∧
    ¬ set_both 1000 ⟨0, 0, 0, 0⟩ (byteToI8 150) (byteToI8 106)
        = set_both 1000 ⟨0, 0, 0, 0⟩ 100 (-100) := by
  decide

/-- C8 amended: for every i8 pair of speed arguments (integers in
[-128, 127]), the sign selects Forward or Reverse, the resulting duty uses
the magnitude clamped to at most 100 (including the wrapping corner case
-128, whose magnitude 128 is clamped by set_motor), and 0 maps to the Stop
keep-alive policy; the largest representable pair behaves identically to
the clamped pair: set_both(127, -127) equals set_both(100, -100). -/
theorem set_both_amended (maxDuty : ℕ) (d : Duties) (l r : ℤ)
    (hl1 : -128 ≤ l) (hl2 : l ≤ 127) (hr1 : -128 ≤ r) (hr2 : r ≤ 127) :
    (0 < l → (set_both maxDuty d l r).ch1 = maxDuty * min l.toNat 100 / 100 ∧
      (set_both maxDuty d l r).ch2 = 0) ∧
    (l < 0 → (set_both maxDuty d l r).ch1 = 0 ∧
      (set_both maxDuty d l r).ch2 = maxDuty * min (-l).toNat 100 / 100) ∧
    (l = 0 → (set_both maxDuty d l r).ch1 = maxDuty * 10 / 100 ∧
      (set_both maxDuty d l r).ch2 = 0) ∧
    (0 < r → (set_both maxDuty d l r).ch3 = maxDuty * min r.toNat 100 / 100 ∧
      (set_both maxDuty d l r).ch4 = 0) ∧
    (r < 0 → (set_both maxDuty d l r).ch3 = 0 ∧
      (set_both maxDuty d l r).ch4 = maxDuty * min (-r).toNat 100 / 100) ∧
    (r = 0 → (set_both maxDuty d l r).ch3 = maxDuty * 10 / 100 ∧
      (set_both maxDuty d l r).ch4 = 0) ∧
    set_both maxDuty d 127 (-127) = set_both maxDuty d 100 (-100) := by
  refine ⟨?_, ?_, ?_, ?_, ?_, ?_, rfl⟩
  · intro h
    unfold set_both
    rw [speed_to_dir_pos l h, set_motor_right_ch1, set_motor_right_ch2]
    constructor
    · show maxDuty * min ((min l 100).toNat) 100 / 100 = _
      congr 2
      omega
    · rfl
  · intro h
    unfold set_both
    rw [(speed_to_dir_neg l hl1 h).1, set_motor_right_ch1, set_motor_right_ch2]
    refine ⟨rfl, ?_⟩
    show maxDuty * min (i8AsU8 (min (i8Neg l) 100)) 100 / 100 = _
    rw [(speed_to_dir_neg l hl1 h).2]
  · intro h
    subst h
    unfold set_both
    rw [speed_to_dir_zero, set_motor_right_ch1, set_motor_right_ch2]
    exact ⟨rfl, rfl⟩
  · intro h
    unfold set_both
    rw [speed_to_dir_pos r h]
    constructor
    · show maxDuty * min ((min r 100).toNat) 100 / 100 = _
      congr 2
      omega
    · rfl
  · intro h
    unfold set_both
    rw [(speed_to_dir_neg r hr1 h).1]
    refine ⟨rfl, ?_⟩
    show maxDuty * min (i8AsU8 (min (i8Neg r) 100)) 100 / 100 = _
    rw [(speed_to_dir_neg r hr1 h).2]
  · intro h
    subst h
    unfold set_both
    rw [speed_to_dir_zero]
    exact ⟨rfl, rfl⟩

/-- Witness for C8 at max duty 1000 with speeds 70 and -70. -/
theorem set_both_amended_witness :
    (set_both 1000 ⟨0, 0, 0, 0⟩ 70 (-70)).ch1 = 1000 * min (70 : ℤ).toNat 100 / 100 ∧
    (set_both 1000 ⟨0, 0, 0, 0⟩ 70 (-70)).ch4
      = 1000 * min (-(-70 : ℤ)).toNat 100 / 100 ∧
    set_both 1000 ⟨0, 0, 0, 0⟩ 127 (-127) = set_both 1000 ⟨0, 0, 0, 0⟩ 100 (-100) := by
  have h := set_both_amended 1000 ⟨0, 0, 0, 0⟩ 70 (-70)
    (by decide) (by decide) (by decide) (by decide)
  exact ⟨(h.1 (by decide)).1, (h.2.2.2.2.1 (by decide)).2, h.2.2.2.2.2.2⟩

end LiRu

namespace LiRu

/-! ## ProtocolCodec (bluetooth.rs) -/

/- Command tag bytes received from the controller (bluetooth.rs, mod cmd). -/
namespace cmd

def MOTOR : ℕ := 0x01

def STOP : ℕ := 0x02

def GET_SENSORS : ℕ := 0x03

def PING : ℕ := 0x04

def GET_RAW_SENSORS : ℕ := 0x05

def SET_MODE : ℕ := 0x06

def START : ℕ := 0x07

end cmd

/- Message tag bytes sent to the controller (bluetooth.rs, mod msg). -/
namespace msg

def SENSORS : ℕ := 0x10

def PONG : ℕ := 0x11

def CONNECTED : ℕ := 0x12

def RAW_SENSORS : ℕ := 0x13

def CALIBRATION_START : ℕ := 0x15

def CALIBRATION_END : ℕ := 0x16

def DEBUG_ANALOG : ℕ := 0x17

end msg

/-- Decoded command (bluetooth.rs, enum Command).  Motor speeds carry the
i8 values produced by the payload byte casts. -/
inductive Command where
  | Motor (left right : ℤ)
  | Stop
  | GetSensors
  | GetRawSensors
  | Ping
  | SetMode (m : ℕ)
  | Start
  | Unknown (b : ℕ)
deriving DecidableEq, Repr

/-- Fixed timeout, in milliseconds, used for every payload byte read in
try_read_command, independent of the tag-byte timeout. -/
def payload_timeout : ℕ := 50

/-- Embedding of Bluetooth::try_read_command.  The byte source is modelled
as a function from (read index, timeout used) to the optional byte that
the corresponding try_read_byte call produced; the tag byte is read with
the caller's timeout and payload bytes with the fixed payload timeout.
A missing tag byte, or a missing payload byte after a Motor or SetMode
tag, makes the whole read produce none. -/
def try_read_command (timeout_ms : ℕ) (src : ℕ → ℕ → Option ℕ) : Option Command :=
  match src 0 timeout_ms with
  | none => none
  | some cmdByte =>
    if cmdByte = cmd.MOTOR then
      match src 1 payload_timeout with
      | none => none
      | some lb =>
        match src 2 payload_timeout with
        | none => none
        | some rb => some (Command.Motor (byteToI8 lb) (byteToI8 rb))
    else if cmdByte = cmd.STOP then some Command.Stop
    else if cmdByte = cmd.GET_SENSORS then some Command.GetSensors
    else if cmdByte = cmd.GET_RAW_SENSORS then some Command.GetRawSensors
    else if cmdByte = cmd.PING then some Command.Ping
    else if cmdByte = cmd.SET_MODE then
      match src 1 payload_timeout with
      | none => none
      | some mb => some (Command.SetMode mb)
    else if cmdByte = cmd.START then some Command.Start
    else some (Command.Unknown cmdByte)

/-- Embedding of Bluetooth::send_raw_sensors: a 17-byte buffer, tag byte
at index 0, then for each channel the u16 reading written little-endian
at indices 1 + 2i and 2 + 2i. -/
def send_raw_sensors_bytes (readings : Fin 8 → ℕ) : List ℕ :=
  let buf := (List.replicate 17 0).set 0 msg.RAW_SENSORS
  (List.finRange 8).foldl
    (fun b i =>
      let v := u16wrap (readings i)
      (b.set (1 + 2 * (i : ℕ)) (v % 256)).set (1 + 2 * (i : ℕ) + 1) (v / 256))
    buf

/-- Embedding of Bluetooth::send_analog_debug: tag byte, then position and
intensity as big-endian 16-bit fields (position through its i16 two's
complement representation), then steering cast i8-to-u8, then the two
speed bytes. -/
def send_analog_debug_bytes (position : ℤ) (intensity : ℕ) (steering : ℤ)
    (left_speed right_speed : ℕ) : List ℕ :=
  let posU := (position % 65536).toNat
  let intU := u16wrap intensity
  [msg.DEBUG_ANALOG, posU / 256, posU % 256, intU / 256, intU % 256,
    i8AsU8 steering, left_speed % 256, right_speed % 256]

end LiRu

namespace LiRu

/-! ## C6 -/

theorem trc_motor_drop (t : ℕ) (src : ℕ → ℕ → Option ℕ)
    (h : src 0 t = some cmd.MOTOR)
    (hp : src 1 payload_timeout = none ∨ src 2 payload_timeout = none) :
    try_read_command t src = none := by
  unfold try_read_command
  simp only [h, if_true]
  rcases hp with h1 | h2
  · simp only [h1]
  · cases hv : src 1 payload_timeout with
    | none => simp only [hv]
    | some lb => simp only [hv, h2]

theorem trc_setmode_drop (t : ℕ) (src : ℕ → ℕ → Option ℕ)
    (h : src 0 t = some cmd.SET_MODE)
    (hp : src 1 payload_timeout = none) :
    try_read_command t src = none := by
  unfold try_read_command
  simp only [h]
  rw [if_neg (by decide), if_neg (by decide), if_neg (by decide), if_neg (by decide),
    if_neg (by decide)]
  simp only [if_true, hp]

theorem trc_unknown (t : ℕ) (src : ℕ → ℕ → Option ℕ) (b : ℕ)
    (h : src 0 t = some b)
    (hb : b ∉ [cmd.MOTOR, cmd.STOP, cmd.GET_SENSORS, cmd.GET_RAW_SENSORS,
      cmd.PING, cmd.SET_MODE, cmd.START]) :
    try_read_command t src = some (Command.Unknown b) := by
  simp only [List.mem_cons, List.not_mem_nil, or_false, not_or] at hb
  obtain ⟨h1, h2, h3, h4, h5, h6, h7⟩ := hb
  unfold try_read_command
  simp only [h]
  rw [if_neg h1, if_neg h2, if_neg h3, if_neg h5, if_neg h4, if_neg h6, if_neg h7]

/-- C6: when a tag byte requiring payload (Motor: two bytes, SetMode: one
byte) is matched but a payload byte never arrives within the fixed payload
timeout, the whole command is dropped silently — try_read_command produces
none, never a partial command — and every unrecognized tag byte b decodes
to Unknown b; in particular the tag 0x99 decodes to Unknown 0x99. -/
theorem try_read_command_spec (t : ℕ) (src : ℕ → ℕ → Option ℕ) :
    (src 0 t = some cmd.MOTOR →
      (src 1 payload_timeout = none ∨ src 2 payload_timeout = none) →
      try_read_command t src = none) ∧
    (src 0 t = some cmd.SET_MODE → src 1 payload_timeout = none →
      try_read_command t src = none) ∧
    (∀ b, src 0 t = some b →
      b ∉ [cmd.MOTOR, cmd.STOP, cmd.GET_SENSORS, cmd.GET_RAW_SENSORS,
        cmd.PING, cmd.SET_MODE, cmd.START] →
      try_read_command t src = some (Command.Unknown b)) ∧
    (src 0 t = some 0x99 → try_read_command t src = some (Command.Unknown 0x99)) :=
  ⟨trc_motor_drop t src, trc_setmode_drop t src, trc_unknown t src,
   fun h => trc_unknown t src 0x99 h (by decide)⟩

/-- Byte source delivering only a tag byte: every later read times out. -/
def srcTagOnly (tag : ℕ) : ℕ → ℕ → Option ℕ := fun i _ => if i = 0 then some tag else none

/-- Witness for C6: a Motor tag and a SetMode tag whose payload reads time
out decode to nothing, and the tag 0x99 decodes to Unknown 0x99. -/
theorem try_read_command_spec_witness :
    try_read_command 100 (srcTagOnly 1) = none ∧
    try_read_command 100 (srcTagOnly 6) = none ∧
    try_read_command 100 (srcTagOnly 0x99) = some (Command.Unknown 0x99) :=
  ⟨(try_read_command_spec 100 (srcTagOnly 1)).1 rfl (Or.inl rfl),
   (try_read_command_spec 100 (srcTagOnly 6)).2.1 rfl rfl,
   (try_read_command_spec 100 (srcTagOnly 0x99)).2.2.2 rfl⟩

/-! ## C9 -/

theorem srs_closed_form (readings : Fin 8 → ℕ) :
    send_raw_sensors_bytes readings
      = msg.RAW_SENSORS ::
        (List.finRange 8).flatMap
          (fun i => [u16wrap (readings i) % 256, u16wrap (readings i) / 256]) := by
  have hfr : (List.finRange 8) = [0, 1, 2, 3, 4, 5, 6, 7] := rfl
  unfold send_raw_sensors_bytes
  rw [hfr]
  simp only [List.foldl_cons, List.foldl_nil, List.flatMap_cons, List.flatMap_nil]
  norm_num [List.replicate, List.set]

theorem srs_le (readings : Fin 8 → ℕ) (i : Fin 8) :
    (send_raw_sensors_bytes readings).getD (1 + 2 * (i : ℕ)) 0
      + 256 * (send_raw_sensors_bytes readings).getD (1 + 2 * (i : ℕ) + 1) 0
      = u16wrap (readings i) := by
  rw [srs_closed_form]
  have hfr : (List.finRange 8) = [0, 1, 2, 3, 4, 5, 6, 7] := rfl
  rw [hfr]
  fin_cases i <;>
    · simp only [List.flatMap_cons, List.flatMap_nil, List.cons_append, List.nil_append]
      unfold u16wrap
      simp [List.getD]
      omega

theorem sad_be (position : ℤ) (intensity : ℕ) (steering : ℤ) (l r : ℕ) :
    (send_analog_debug_bytes position intensity steering l r).getD 1 0 * 256
      + (send_analog_debug_bytes position intensity steering l r).getD 2 0
      = (position % 65536).toNat ∧
    (send_analog_debug_bytes position intensity steering l r).getD 3 0 * 256
      + (send_analog_debug_bytes position intensity steering l r).getD 4 0
      = u16wrap intensity := by
  unfold send_analog_debug_bytes u16wrap
  constructor
  · simp [List.getD]
    omega
  · simp [List.getD]
    omega

/-- C9: the encoded RawSensors message is the tag byte 0x13 followed by
the eight u16 readings in channel order, each as a two-byte little-endian
value (the byte pair at indices 1+2i and 2+2i recombines low-first to the
reading); the encoded DebugAnalog message is the tag byte 0x17 followed by
position and intensity as big-endian 16-bit fields (their byte pairs
recombine high-first), then steering cast i8-to-u8, left speed and right
speed — the little-endian versus big-endian asymmetry between the two
messages. -/
theorem encode_wire_format (readings : Fin 8 → ℕ) (position : ℤ) (intensity : ℕ)
    (steering : ℤ) (l r : ℕ) :
    send_raw_sensors_bytes readings
      = msg.RAW_SENSORS ::
        (List.finRange 8).flatMap
          (fun i => [u16wrap (readings i) % 256, u16wrap (readings i) / 256]) ∧
    (∀ i : Fin 8,
      (send_raw_sensors_bytes readings).getD (1 + 2 * (i : ℕ)) 0
        + 256 * (send_raw_sensors_bytes readings).getD (1 + 2 * (i : ℕ) + 1) 0
        = u16wrap (readings i)) ∧
    send_analog_debug_bytes position intensity steering l r
      = [msg.DEBUG_ANALOG, (position % 65536).toNat / 256, (position % 65536).toNat % 256,
          u16wrap intensity / 256, u16wrap intensity % 256,
          i8AsU8 steering, l % 256, r % 256] ∧
    ((send_analog_debug_bytes position intensity steering l r).getD 1 0 * 256
        + (send_analog_debug_bytes position intensity steering l r).getD 2 0
        = (position % 65536).toNat ∧
      (send_analog_debug_bytes position intensity steering l r).getD 3 0 * 256
        + (send_analog_debug_bytes position intensity steering l r).getD 4 0
        = u16wrap intensity) :=
  ⟨srs_closed_form readings, srs_le readings, rfl,
   sad_be position intensity steering l r⟩

end LiRu

namespace LiRu

/-! ## RobotStateMachine (main.rs) -/

/-- Robot mode (main.rs, enum RobotMode); the calibrating variant carries
its start instant, modelled as a millisecond count. -/
inductive RobotMode where
  | Car
  | LineFollowerIdle
  | LineFollowerCalibrating (start : ℕ)
  | LineFollowerRunning
deriving DecidableEq, Repr

/-- Telemetry messages the loop can emit over the link.  Payloads carry
the typed fields; their wire encoding is the codec above. -/
inductive Msg where
  | Sensors (b : ℕ)
  | RawSensors (rs : List ℕ)
  | Pong
  | CalibrationStart
  | CalibrationEnd
  | DebugAnalog (pos : ℤ) (int : ℕ) (steer : ℤ) (l r : ℕ)
deriving DecidableEq, Repr

/-- State owned by the main control loop (main.rs, locals of main). -/
structure RState where
  mode : RobotMode
  cal : CalState
  duties : Duties
  last_direction : ℤ
  last_weighted_pos : ℤ
  last_intensity : ℕ
  last_steering : ℤ
  last_left_speed : ℕ
  last_right_speed : ℕ
  last_position : ℕ

/-- Keyboard-control speed constant of main.rs. -/
def kbd_speed : ℕ := 70

/-- Embedding of the command dispatch of the main loop (main.rs, the match
on the decoded command).  Takes the frame a sensor read would produce this
iteration and the current instant; yields the new state and the emitted
messages. -/
def process_command (maxDuty now : ℕ) (frame : Fin 8 → ℕ) (s : RState)
    (c : Command) : RState × List Msg :=
  match c with
  | Command.Motor l r => ({ s with duties := set_both maxDuty s.duties l r }, [])
  | Command.Stop =>
    match s.mode with
    | RobotMode.LineFollowerCalibrating _ =>
      ({ s with duties := stop_all s.duties, mode := RobotMode.LineFollowerIdle }, [])
    | RobotMode.LineFollowerRunning =>
      ({ s with duties := stop_all s.duties, mode := RobotMode.LineFollowerIdle }, [])
    | _ => ({ s with duties := stop_all s.duties }, [])
  | Command.SetMode m =>
    if m = 1 then
      ({ s with mode := RobotMode.LineFollowerIdle, duties := stop_all s.duties }, [])
    else
      ({ s with mode := RobotMode.Car, duties := stop_all s.duties }, [])
  | Command.Start =>
    match s.mode with
    | RobotMode.LineFollowerIdle =>
      ({ s with cal := reset_calibration s.cal,
                mode := RobotMode.LineFollowerCalibrating now },
        [Msg.CalibrationStart])
    | _ => (s, [])
  | Command.GetSensors => (s, [Msg.Sensors (read_binary s.cal frame)])
  | Command.GetRawSensors => (s, [Msg.RawSensors ((List.finRange 8).map frame)])
  | Command.Ping => (s, [Msg.Pong])
  | Command.Unknown b =>
    match s.mode with
    | RobotMode.Car =>
      if b = 87 ∨ b = 119 then
        ({ s with duties := motor_forward maxDuty s.duties kbd_speed }, [])
      else if b = 83 ∨ b = 115 then
        ({ s with duties := motor_backward maxDuty s.duties kbd_speed }, [])
      else if b = 65 ∨ b = 97 then
        ({ s with duties := turn_left maxDuty s.duties kbd_speed }, [])
      else if b = 68 ∨ b = 100 then
        ({ s with duties := turn_right maxDuty s.duties kbd_speed }, [])
      else if b = 81 ∨ b = 113 ∨ b = 32 then
        ({ s with duties := stop_all s.duties }, [])
      else if b = 82 ∨ b = 114 then
        (s, [Msg.RawSensors ((List.finRange 8).map frame)])
      else (s, [])
    | _ => (s, [])

/-- Embedding of the per-mode logic block of the main loop (main.rs, the
match on mode after command processing).  Elapsed seconds in the
calibrating phase are (now - start) / 1000 on millisecond instants. -/
def mode_tick (maxDuty now : ℕ) (frame : Fin 8 → ℕ) (s : RState) : RState × List Msg :=
  match s.mode with
  | RobotMode.Car => (s, [])
  | RobotMode.LineFollowerIdle => (s, [])
  | RobotMode.LineFollowerCalibrating start =>
    if (now - start) / 1000 < 10 then
      ({ s with cal := update_calibration s.cal frame }, [])
    else
      ({ s with cal := finalize_calibration s.cal,
                mode := RobotMode.LineFollowerRunning },
        [Msg.CalibrationEnd])
  | RobotMode.LineFollowerRunning =>
    let pr := read_line_position s.cal frame
    let position := pr.1
    let intensity := pr.2
    let raw_binary := read_binary s.cal frame
    let s1 := { s with last_weighted_pos := position, last_intensity := intensity,
                       last_position := raw_binary }
    if intensity = 0 then
      if s1.last_direction < (0 : ℤ) then
        ({ s1 with duties := turn_left maxDuty s1.duties 55 }, [])
      else if s1.last_direction > (0 : ℤ) then
        ({ s1 with duties := turn_right maxDuty s1.duties 55 }, [])
      else ({ s1 with duties := motor_forward maxDuty s1.duties 50 }, [])
    else
      let abs_pos := if position < 0 then -position else position
      let steering := Int.tdiv position 100
      let base_speed : ℤ := if abs_pos < 500 then 65 else if abs_pos < 1500 then 55 else 50
      let left_speed := min (max (base_speed + steering) 0) 75
      let right_speed := min (max (base_speed - steering) 0) 75
      ({ s1 with duties := set_both maxDuty s1.duties left_speed right_speed,
                 last_steering := steering,
                 last_left_speed := left_speed.toNat,
                 last_right_speed := right_speed.toNat,
                 last_direction :=
                   if steering > 5 then 1 else if steering < -5 then -1 else 0 }, [])

end LiRu

namespace LiRu

/-! ## C4 -/

/-- C4: a Start command is honored only in LineFollowerIdle, where it
resets calibration, emits CalibrationStart exactly once, and transitions
to LineFollowerCalibrating(now); in any other mode Start changes nothing
and emits nothing.  A Stop command while Calibrating or Running stops the
motors and transitions back to LineFollowerIdle without emitting
CalibrationEnd.  Once 10 seconds have elapsed in Calibrating, the tick
finalizes calibration, emits CalibrationEnd exactly once, and transitions
to LineFollowerRunning. -/
theorem mode_machine_spec (maxDuty now : ℕ) (frame : Fin 8 → ℕ) (s : RState) :
    (s.mode = RobotMode.LineFollowerIdle →
      process_command maxDuty now frame s Command.Start
        = ({ s with cal := reset_calibration s.cal,
                    mode := RobotMode.LineFollowerCalibrating now },
            [Msg.CalibrationStart]) ∧
      (process_command maxDuty now frame s Command.Start).2.count Msg.CalibrationStart = 1) ∧
    (s.mode ≠ RobotMode.LineFollowerIdle →
      process_command maxDuty now frame s Command.Start = (s, [])) ∧
    ((∃ t0, s.mode = RobotMode.LineFollowerCalibrating t0) ∨
        s.mode = RobotMode.LineFollowerRunning →
      process_command maxDuty now frame s Command.Stop
        = ({ s with duties := stop_all s.duties, mode := RobotMode.LineFollowerIdle }, []) ∧
      Msg.CalibrationEnd ∉ (process_command maxDuty now frame s Command.Stop).2) ∧
    (∀ t0, s.mode = RobotMode.LineFollowerCalibrating t0 → 10 ≤ (now - t0) / 1000 →
      mode_tick maxDuty now frame s
        = ({ s with cal := finalize_calibration s.cal,
                    mode := RobotMode.LineFollowerRunning }, [Msg.CalibrationEnd]) ∧
      (mode_tick maxDuty now frame s).2.count Msg.CalibrationEnd = 1) := by
  refine ⟨?_, ?_, ?_, ?_⟩
  · intro h
    simp only [process_command, h]
    exact ⟨trivial, by decide⟩
  · intro h
    cases hm : s.mode with
    | Car => simp only [process_command, hm]
    | LineFollowerIdle => exact absurd hm h
    | LineFollowerCalibrating t => simp only [process_command, hm]
    | LineFollowerRunning => simp only [process_command, hm]
  · intro h
    rcases h with ⟨t0, h⟩ | h
    · simp only [process_command, h]
      exact ⟨trivial, by simp⟩
    · simp only [process_command, h]
      exact ⟨trivial, by simp⟩
  · intro t0 h h10
    simp only [mode_tick, h]
    rw [if_neg (by omega)]
    exact ⟨rfl, by simp⟩

/-- Concrete idle state for witnesses. -/
def idleSt : RState :=
  { mode := RobotMode.LineFollowerIdle, cal := CalState.init, duties := ⟨0, 0, 0, 0⟩,
    last_direction := 0, last_weighted_pos := 0, last_intensity := 0, last_steering := 0,
    last_left_speed := 0, last_right_speed := 0, last_position := 0 }

/-- Concrete calibrating state for witnesses. -/
def calSt : RState := { idleSt with mode := RobotMode.LineFollowerCalibrating 0 }

/-- Concrete running state for witnesses, calibrated as in the spec example. -/
def runSt : RState := { idleSt with mode := RobotMode.LineFollowerRunning, cal := calEx }

/-- Witness for C4: Start from idle, Start while running, Stop while
calibrating, and the ten-second calibration tick, at concrete states. -/
theorem mode_machine_spec_witness :
    process_command 1000 5 frameZero idleSt Command.Start
      = ({ idleSt with cal := reset_calibration idleSt.cal,
                       mode := RobotMode.LineFollowerCalibrating 5 },
          [Msg.CalibrationStart]) ∧
    process_command 1000 5 frameZero runSt Command.Start = (runSt, []) ∧
    process_command 1000 5 frameZero calSt Command.Stop
      = ({ calSt with duties := stop_all calSt.duties,
                      mode := RobotMode.LineFollowerIdle }, []) ∧
    mode_tick 1000 10000 frameZero calSt
      = ({ calSt with cal := finalize_calibration calSt.cal,
                      mode := RobotMode.LineFollowerRunning }, [Msg.CalibrationEnd]) :=
  ⟨((mode_machine_spec 1000 5 frameZero idleSt).1 rfl).1,
   (mode_machine_spec 1000 5 frameZero runSt).2.1 (by decide),
   ((mode_machine_spec 1000 5 frameZero calSt).2.2.1 (Or.inl ⟨0, rfl⟩)).1,
   ((mode_machine_spec 1000 10000 frameZero calSt).2.2.2 0 rfl (by norm_num)).1⟩

/-! ## C10 -/

/-- C10: processing SetMode(m) always stops all motors (all four duties
forced to 0), and the resulting mode is LineFollowerIdle exactly when
m = 1; every other byte value selects Car — in particular SetMode(2)
yields Car rather than being rejected. -/
theorem set_mode_spec (maxDuty now : ℕ) (frame : Fin 8 → ℕ) (s : RState) (m : ℕ) :
    (process_command maxDuty now frame s (Command.SetMode m)).1.duties
      = { ch1 := 0, ch2 := 0, ch3 := 0, ch4 := 0 } ∧
    (process_command maxDuty now frame s (Command.SetMode m)).1.mode
      = (if m = 1 then RobotMode.LineFollowerIdle else RobotMode.Car) ∧
    ((process_command maxDuty now frame s (Command.SetMode m)).1.mode
        = RobotMode.LineFollowerIdle ↔ m = 1) ∧
    (process_command maxDuty now frame s (Command.SetMode 2)).1.mode = RobotMode.Car := by
  by_cases hm : m = 1 <;>
    simp [process_command, hm, stop_all]

/-! ## C7 -/

/-- Steering of the control law: position / 100 in truncating i32 division. -/
def spec_steering (position : ℤ) : ℤ := Int.tdiv position 100

/-- Tiered base speed of the control law. -/
def spec_base_speed (position : ℤ) : ℤ :=
  if |position| < 500 then 65 else if |position| < 1500 then 55 else 50

/-- Clamp to the interval from 0 to the safety cap 75. -/
def clamp075 (x : ℤ) : ℤ := min (max x 0) 75

/-- Direction bias remembered for the next line-loss event. -/
def spec_last_direction (steering : ℤ) : ℤ :=
  if steering > 5 then 1 else if steering < -5 then -1 else 0

/-- C7: in LineFollowerRunning with a line present (nonzero intensity),
the tick drives the motors with left = clamp(base + steering, 0, 75) and
right = clamp(base - steering, 0, 75), where steering = position / 100 by
truncating integer division and the base speed is 65 when the absolute
position is below 500, 55 when below 1500 and 50 otherwise; the remembered
direction bias becomes 1 when steering exceeds 5, -1 when steering is
below -5, and 0 otherwise; no message is emitted by the tick. -/
theorem running_control_law (maxDuty now : ℕ) (frame : Fin 8 → ℕ) (s : RState)
    (hm : s.mode = RobotMode.LineFollowerRunning)
    (hi : (read_line_position s.cal frame).2 ≠ 0) :
    (mode_tick maxDuty now frame s).1.duties
      = set_both maxDuty s.duties
          (clamp075 (spec_base_speed (read_line_position s.cal frame).1
            + spec_steering (read_line_position s.cal frame).1))
          (clamp075 (spec_base_speed (read_line_position s.cal frame).1
            - spec_steering (read_line_position s.cal frame).1)) ∧
    (mode_tick maxDuty now frame s).1.last_steering
      = spec_steering (read_line_position s.cal frame).1 ∧
    (mode_tick maxDuty now frame s).1.last_direction
      = spec_last_direction (spec_steering (read_line_position s.cal frame).1) ∧
    (mode_tick maxDuty now frame s).2 = [] := by
  have habs : (if (read_line_position s.cal frame).1 < 0
      then -(read_line_position s.cal frame).1
      else (read_line_position s.cal frame).1) = |(read_line_position s.cal frame).1| := by
    rcases lt_or_le (read_line_position s.cal frame).1 0 with h | h
    · rw [if_pos h, abs_of_neg h]
    · rw [if_neg (not_lt.mpr h), abs_of_nonneg h]
  simp only [mode_tick, hm]
  rw [if_neg hi]
  simp only [habs, spec_steering, spec_base_speed, clamp075, spec_last_direction]
  exact ⟨trivial, trivial, trivial, trivial⟩

/-- Witness for C7: the spec-example calibration with the line at channel
3 gives position -500 and intensity 1000, hence steering -5, base 55,
left 50, right 60, and a neutral remembered direction. -/
theorem running_control_law_witness :
    (mode_tick 1000 0 frameOnly3 runSt).1.duties = set_both 1000 runSt.duties 50 60 ∧
    (mode_tick 1000 0 frameOnly3 runSt).1.last_steering = -5 ∧
    (mode_tick 1000 0 frameOnly3 runSt).1.last_direction = 0 := by
  have h := running_control_law 1000 0 frameOnly3 runSt rfl (by decide)
  exact ⟨h.1.trans (by decide), h.2.1.trans (by decide), h.2.2.1.trans (by decide)⟩

end LiRu
